import Mathlib

/-!
# Verification of the valheim-world-engine orchestration and warm-pool subsystem

This file shallowly embeds the orchestration core of the repository:

* `backend/app/services/world_generator.py` — launch-plan builder, file-stability
  predicate, present-file resolution and the log/file monitoring loop of
  `run_world_generation`;
* `etl/experimental/bepinex-gen1/lib/orchestrator.py` — the retry loop of
  `DockerOrchestrator.generate_world`, the monitoring loop
  `_wait_for_generation_with_monitoring` and its critical-error scan;
* `etl/experimental/warm-pooling/warm_engine_pool_manager.py` — the engine pool
  state machine (`create_warm_engine`, `_get_available_engine`, `generate_world`,
  `_reset_engine`, `_discover_existing_engines`, `shutdown_engine`).

External effects (Docker API calls, the filesystem, the wall clock, log streams)
are passed in explicitly: the filesystem is a map from path to optional mtime,
the log stream is a list of events, and each fallible Docker call is an oracle
Boolean recorded in the event/oracle structures.  Machine reals (Python floats
for timestamps) are modelled as integers / naturals; mtimes are seconds since
the Unix epoch and hence non-negative.
-/

/-! ## String helpers

Python's `needle in haystack` is substring containment; regex patterns used by
the code are all literal strings, `re.IGNORECASE` ones are matched after
lower-casing both sides. -/

/-- Does `hay` start with `needle`? (list version of Python `str.startswith`). -/
def startsWithB [DecidableEq α] : List α → List α → Bool
  | [], _ => true
  | _ :: _, [] => false
  | a :: as, b :: bs => a = b && startsWithB as bs

/-- Does `hay` contain `needle` as a contiguous sublist? -/
def hasSubListB [DecidableEq α] (needle : List α) : List α → Bool
  | [] => needle.isEmpty
  | b :: bs => startsWithB needle (b :: bs) || hasSubListB needle bs

/-- Python `needle in hay` on strings (substring containment). -/
def containsStr (needle hay : String) : Bool :=
  hasSubListB needle.toList hay.toList

/-- Case-insensitive substring containment: how a literal `re.IGNORECASE`
pattern matches a line (both sides lower-cased character-wise). -/
def containsStrCI (needle hay : String) : Bool :=
  hasSubListB (needle.toList.map Char.toLower) (hay.toList.map Char.toLower)

/-! ## Launch Plan Builder (`build_worldgen_plan`) -/

namespace WorldGen

/-- The fields of `app.core.config.settings` read by `world_generator.py`. -/
structure Settings where
  dataDir : String
  hostDataDir : String
  valheimImage : String
  serverName : String
  serverPass : String
  hostUid : Option Nat
  hostGid : Option Nat
  stage1StableSec : Int
  stage1TimeoutSec : Int

/-- `os.path.join a b` for a relative second component (the only way the code
uses it). -/
def pathJoin (a b : String) : String := a ++ "/" ++ b

/-- The `readiness` sub-dict of the plan. -/
structure ReadinessSpec where
  logRegex : List String
  stableSeconds : Int
  timeoutSeconds : Int
deriving DecidableEq

/-- The dict returned by `build_worldgen_plan` (field `generated_at` is the
`datetime.utcnow()` timestamp taken at build time). -/
structure WorldgenPlan where
  generatedAt : String
  image : String
  env : List (String × String)
  volumes : List (String × String)
  readiness : ReadinessSpec
  rawOutputs : List String
  extractedOutputs : List String
deriving DecidableEq

/-- Python `str(settings.host_uid or 1000)`: `or` falls through on `None`
and on `0` (both falsy). -/
def uidString : Option Nat → String
  | none => "1000"
  | some u => if u = 0 then "1000" else toString u

/-- `build_worldgen_plan(seed, seed_hash)`; `now` is the string
`datetime.utcnow().isoformat() + "Z"` observed at the call. -/
def buildWorldgenPlan (s : Settings) (seed seedHash : String) (now : String) :
    WorldgenPlan :=
  let seedDir := pathJoin (pathJoin s.dataDir "seeds") seedHash
  let extractedDir := pathJoin seedDir "extracted"
  let hostSeedDir := pathJoin (pathJoin s.hostDataDir "seeds") seedHash
  { generatedAt := now
    image := s.valheimImage
    env :=
      [ ("WORLD_NAME", seed)
      , ("SERVER_PUBLIC", "0")
      , ("TZ", "UTC")
      , ("UPDATE_ON_START", "1")
      , ("SERVER_NAME", s.serverName)
      , ("SERVER_PASS", s.serverPass)
      , ("BEPINEX", "1")
      , ("PUID", uidString s.hostUid)
      , ("PGID", uidString s.hostGid)
      , ("PRE_SERVER_SHUTDOWN_HOOK",
          "echo save to console socket or signal USR1 fallback") ]
    volumes := [(hostSeedDir, "/config")]
    readiness :=
      { logRegex :=
          [ "Game server connected", "Zonesystem Start", "Export complete"
          , "Saving world", "World saved" ]
        stableSeconds := s.stage1StableSec
        timeoutSeconds := s.stage1TimeoutSec }
    rawOutputs :=
      [ pathJoin (pathJoin seedDir "worlds_local") (seed ++ ".db")
      , pathJoin (pathJoin seedDir "worlds_local") (seed ++ ".fwl") ]
    extractedOutputs :=
      [ pathJoin extractedDir "biomes.json"
      , pathJoin extractedDir "heightmap.npy" ] }

/-! ## Readiness Detector file-side (`_files_stable`, `_choose_present_files`) -/

/-- A filesystem snapshot: maps a path to its mtime (seconds since the epoch)
when the path exists. -/
abbrev Fs : Type := String → Option Nat

/-- Loop body of `_files_stable`: walk the paths keeping the running
`latest_mtime` (initially `0.0`), returning `False` as soon as a path is
missing, finally compare `time.time() - latest_mtime >= stable_seconds`. -/
def filesStableAux (fs : Fs) (now stableSeconds : Int) :
    List String → Nat → Bool
  | [], latest => decide (stableSeconds ≤ now - (latest : Int))
  | p :: ps, latest =>
    match fs p with
    | none => false
    | some m => filesStableAux fs now stableSeconds ps (max latest m)

/-- `_files_stable(paths, stable_seconds)` evaluated at wall-clock time
`now`. -/
def filesStable (fs : Fs) (now : Int) (paths : List String)
    (stableSeconds : Int) : Bool :=
  filesStableAux fs now stableSeconds paths 0

/-- `_choose_present_files(base_paths)`: prefer the base file if it exists,
else consider the `.old` backup variant, else drop the entry. -/
def choosePresentFiles (fs : Fs) : List String → List String
  | [] => []
  | p :: ps =>
    if (fs p).isSome then p :: choosePresentFiles fs ps
    else if (fs (p ++ ".old")).isSome then
      (p ++ ".old") :: choosePresentFiles fs ps
    else choosePresentFiles fs ps

/-! ## Monitoring loop of `run_world_generation`

The loop consumes the container's log stream chunk by chunk; each event below
is one chunk carrying one complete line (the checks after the line-splitting
inner loop run once per chunk, on its last complete line).  `fs` and `now` are
the filesystem snapshot and `time.time()` value at the post-line checks of that
iteration; `stopOk` says whether `container.stop(timeout=10)` would succeed
there (on failure the code logs and falls through instead of breaking). -/
structure MonEvent where
  line : String
  fs : Fs
  now : Int
  stopOk : Bool

/-- The regex literals of module-level `LOG_PATTERNS` (all `re.IGNORECASE`). -/
def logPatterns : List String :=
  ["Game server connected", "Zonesystem Start", "Export complete",
   "Saving world", "World saved"]

/-- The result fields of `run_world_generation` settled by the monitoring
loop. -/
structure MonStatus where
  logMatch : Bool
  timedOut : Bool
deriving DecidableEq

/-- `"Failed to place all" in line or "Generated" in line` — the heuristic
that triggers the graceful-shutdown break. -/
def generationCompleteHeuristic (line : String) : Bool :=
  containsStr "Failed to place all" line || containsStr "Generated" line

/-- The per-event file check: resolved present files, requiring both a `.db`
and a `.fwl` among them, all stable. -/
def fileBreakCondition (rawPaths : List String) (stableSeconds : Int)
    (e : MonEvent) : Bool :=
  let present := choosePresentFiles e.fs rawPaths
  present.any (fun p => containsStr ".db" p) &&
    present.any (fun p => containsStr ".fwl" p) &&
    filesStable e.fs e.now present stableSeconds

/-- The monitoring loop of `run_world_generation` (lines 195–269): per
iteration it (1) ors the line against `LOG_PATTERNS` into `log_match`,
(2) breaks on the generation-complete heuristic when the graceful stop
succeeds, (3) breaks when the resolved raw outputs contain a `.db` and a
`.fwl` and are stable, (4) breaks with `timed_out = True` when
`time.time() > deadline`, else continues; a stream that ends returns with
`timed_out = False`. -/
def monitorLoop (rawPaths : List String) (stableSeconds deadline : Int) :
    Bool → List MonEvent → MonStatus
  | lm, [] => ⟨lm, false⟩
  | lm, e :: es =>
    let lm := lm || logPatterns.any (fun p => containsStrCI p e.line)
    if generationCompleteHeuristic e.line && e.stopOk then ⟨lm, false⟩
    else if fileBreakCondition rawPaths stableSeconds e then ⟨lm, false⟩
    else if decide (deadline < e.now) then ⟨lm, true⟩
    else monitorLoop rawPaths stableSeconds deadline lm es

/-- The conditions under which an event ends the wait early (declaring the
attempt done rather than timed out): the generation-complete heuristic with a
successful graceful stop, or the file-stability break. -/
def eventEarlyStop (rawPaths : List String) (stableSeconds : Int)
    (e : MonEvent) : Bool :=
  (generationCompleteHeuristic e.line && e.stopOk) ||
    fileBreakCondition rawPaths stableSeconds e

/-- Spec-side verdict (refinement target): the attempt times out exactly when
the first event that stops the loop does so via the deadline rather than via
the heuristic or the file-stability break. -/
def timedOutVerdict (rawPaths : List String) (stableSeconds deadline : Int)
    (events : List MonEvent) : Bool :=
  match events.find? (fun e =>
      eventEarlyStop rawPaths stableSeconds e || decide (deadline < e.now)) with
  | some e => !eventEarlyStop rawPaths stableSeconds e
  | none => false

/-- Spec-side maximum modification time over a path list (`0` when empty; the
paths are all assumed present when this is read). -/
def maxMtime (fs : Fs) (paths : List String) : Nat :=
  (paths.map (fun p => (fs p).getD 0)).foldl max 0

end WorldGen

/-! ## Docker Orchestrator (`bepinex-gen1/lib/orchestrator.py`) -/

namespace Orch

/-- The fields of `GenerationResult` the retry loop inspects (`error_message`
is always a string when `success` is false: every failure branch of
`_execute_generation` sets it). -/
structure GenResult where
  success : Bool
  timeout : Bool
  errorMessage : String
deriving DecidableEq

/-- Outcome of one `_execute_generation` + `_save_*` attempt as observed by
the retry loop: either a returned `GenerationResult` or an exception escaping
the attempt body. -/
inductive AttemptOutcome
  | res (r : GenResult)
  | exc (msg : String)

/-- `"Configuration validation failed" in result.error_message`. -/
def isConfigFailure (r : GenResult) : Bool :=
  containsStr "Configuration validation failed" r.errorMessage

/-- The fall-through result built after the `for` loop
(`All {max_retries} attempts failed`). -/
def allFailedResult (maxRetries : Nat) : GenResult :=
  ⟨false, false, "All " ++ toString maxRetries ++ " attempts failed"⟩

/-- The result returned when the last attempt raises
(`All {max_retries} attempts failed: {e}`). -/
def lastExcResult (maxRetries : Nat) (msg : String) : GenResult :=
  ⟨false, false, "All " ++ toString maxRetries ++ " attempts failed: " ++ msg⟩

/-- One run of the retry loop of `DockerOrchestrator.generate_world`
(lines 249–310), after configuration validation passed.

Arguments mirror the Python state: `i` is the `attempt` index, `remaining`
the iterations `range(max_retries)` still has (so `remaining = maxRetries - i`
at the top call), `d` the current `retry_delay`.  Returns the list of delays
actually slept (one per retried attempt, in order), the list of attempt
indices executed, and the final `GenerationResult`.

Per iteration: when `attempt > 0` sleep `retry_delay` then double it; run the
attempt; on success return its result; on a failure whose message contains
`"Configuration validation failed"`, or on `result.timeout`, `break` (falling
through to the all-failed result); otherwise continue; an exception continues
unless this was the last attempt, which returns the exception result. -/
def genLoopAux (att : Nat → AttemptOutcome) (maxRetries : Nat) :
    Nat → Nat → Nat → List Nat × List Nat × GenResult
  | _, 0, _ => ([], [], allFailedResult maxRetries)
  | i, remaining + 1, d =>
    let ds : List Nat := if 0 < i then [d] else []
    let d' : Nat := if 0 < i then d * 2 else d
    match att i with
    | .res r =>
      if r.success then (ds, [i], r)
      else if isConfigFailure r || r.timeout then
        (ds, [i], allFailedResult maxRetries)
      else
        let rest := genLoopAux att maxRetries (i + 1) remaining d'
        (ds ++ rest.1, i :: rest.2.1, rest.2.2)
    | .exc m =>
      if i = maxRetries - 1 then (ds, [i], lastExcResult maxRetries m)
      else
        let rest := genLoopAux att maxRetries (i + 1) remaining d'
        (ds ++ rest.1, i :: rest.2.1, rest.2.2)

/-- The retry loop entered with `attempt = 0` and
`retry_delay = docker_config.get("retry_delay", 10)`. -/
def genRetryLoop (att : Nat → AttemptOutcome) (maxRetries baseDelay : Nat) :
    List Nat × List Nat × GenResult :=
  genLoopAux att maxRetries 0 maxRetries baseDelay

/-! ### Monitoring loop `_wait_for_generation_with_monitoring` -/

/-- The container status one poll iteration sees after `reload()`
(`exited`/`dead` carry the exit code). -/
inductive ContainerStatus
  | running
  | exited (exitCode : Int)
  | dead (exitCode : Int)

/-- What one poll iteration observes: the container status, the log window
`container.logs(since=last_log_time)` the iteration would read (the stream
content exists whether or not the code gets to read it — an exited container
returns before the scan), and whether the Docker calls of this iteration
raise. -/
structure PollObs where
  status : ContainerStatus
  newLogs : String
  raises : Bool

/-- The fixed critical-error substrings of `_check_for_critical_errors`. -/
def criticalPatterns : List String :=
  [ "FATAL ERROR", "CRITICAL ERROR", "Failed to start", "Permission denied"
  , "No such file or directory", "Connection refused"
  , "Bind: address already in use", "Cannot assign requested address"
  , "SteamCMD failed", "Valheim server failed", "BepInEx failed" ]

/-- `_check_for_critical_errors(logs)`. -/
def checkForCriticalErrors (logs : String) : Bool :=
  criticalPatterns.any (fun p => containsStr p logs)

/-- The BepInEx export-completion indicators. -/
def exportIndicators : List String :=
  ["ALL EXPORTS COMPLETE", "VWE_DataExporter: ALL EXPORTS COMPLETE"]

/-- `_wait_for_generation_with_monitoring` (lines 635–713) over a discretized
poll trace.  `fuel` is the number of loop iterations the wall-clock window
`time.time() - start_time < timeout_seconds` admits; exhausting it returns
`(False, True)` (timed out).  Per iteration, in source order: an exited/dead
container returns `(exit_code == 0, False)`; a critical pattern in the new
log window returns `(False, False)`; a readiness indicator sets
`server_ready`; with `server_ready`, an export indicator returns
`(True, False)`; with `server_ready` and BepInEx disabled the loop returns
`(True, False)`; an exception bumps `error_count`, returning `(False, False)`
at `max_errors = 10`.  Returns `(ready, timedOut)`. -/
def waitMonitorAux (bepinexEnabled : Bool) (readinessIndicators : List String)
    (trace : Nat → PollObs) :
    Nat → Nat → Bool → Nat → Bool × Bool
  | _, 0, _, _ => (false, true)
  | k, fuel + 1, serverReady, errorCount =>
    if (trace k).raises then
      if 10 ≤ errorCount + 1 then (false, false)
      else waitMonitorAux bepinexEnabled readinessIndicators trace
        (k + 1) fuel serverReady (errorCount + 1)
    else
      match (trace k).status with
      | .exited c => (decide (c = 0), false)
      | .dead c => (decide (c = 0), false)
      | .running =>
        let logs := (trace k).newLogs
        if checkForCriticalErrors logs then (false, false)
        else
          let serverReady := serverReady ||
            readinessIndicators.any (fun p => containsStr p logs)
          if serverReady &&
              exportIndicators.any (fun p => containsStr p logs) then
            (true, false)
          else if serverReady && !bepinexEnabled then (true, false)
          else waitMonitorAux bepinexEnabled readinessIndicators trace
            (k + 1) fuel serverReady errorCount

/-- Entry point of the monitoring wait: poll 0, fresh state. -/
def waitForGenerationWithMonitoring (bepinexEnabled : Bool)
    (readinessIndicators : List String) (trace : Nat → PollObs) (fuel : Nat) :
    Bool × Bool :=
  waitMonitorAux bepinexEnabled readinessIndicators trace 0 fuel false 0

end Orch

/-! ## Warm Engine Pool Manager (`warm_engine_pool_manager.py`) -/

namespace Pool

/-- `EngineState` enum. -/
inductive EngineState
  | starting | ready | generating | exporting | resetting | error
deriving DecidableEq

/-- `EngineMetadata` dataclass; timestamps are naturals (the ISO strings
compare like their instants). -/
structure EngineMetadata where
  engineId : String
  state : EngineState
  containerName : String
  createdAt : Nat
  lastUsed : Nat
  jobsProcessed : Nat
  currentJobId : Option String
  currentSeed : Option String
  healthStatus : String
deriving DecidableEq

/-- The fields of `WarmEngineConfig` the modelled control flow reads (the
timeouts only parameterize the Docker waits, which are oracles here). -/
structure WarmEngineConfig where
  maxWarmContainers : Nat
  maxJobsPerEngine : Nat

/-- The `self.engines` dict: an insertion-ordered association list with unique
keys. -/
abbrev Registry : Type := List (String × EngineMetadata)

/-- `engines[engine_id]` / `engine_id in self.engines`. -/
def lookupEngine : Registry → String → Option EngineMetadata
  | [], _ => none
  | kv :: t, k => if kv.1 = k then some kv.2 else lookupEngine t k

/-- `engines[engine_id] = meta`: update in place, else append (dict insertion
order). -/
def setEngine : Registry → String → EngineMetadata → Registry
  | [], k, v => [(k, v)]
  | kv :: t, k, v => if kv.1 = k then (k, v) :: t else kv :: setEngine t k v

/-- `del engines[engine_id]`. -/
def removeEngine : Registry → String → Registry
  | [], _ => []
  | kv :: t, k => if kv.1 = k then t else kv :: removeEngine t k

/-- `[e for e in self.engines.values() if e.state != EngineState.ERROR]`. -/
def liveEngines (p : Registry) : List EngineMetadata :=
  (p.map Prod.snd).filter (fun e => decide (e.state ≠ EngineState.error))

/-- The number of live (non-ERROR) engines in the registry. -/
def liveCount (p : Registry) : Nat := (liveEngines p).length

/-- `sorted(engines, key=lambda e: e.last_used)[0]`: the stable minimum by
`last_used` (first in iteration order among ties); `none` on the empty list,
where Python raises `IndexError`. -/
def lruEngine : List EngineMetadata → Option EngineMetadata
  | [] => none
  | e :: es =>
    some (es.foldl (fun acc x => if x.lastUsed < acc.lastUsed then x else acc) e)

/-- Stable minimum by `last_used` over `(engine_id, metadata)` pairs, as in
`_get_available_engine`. -/
def lruEntry : List (String × EngineMetadata) → Option (String × EngineMetadata)
  | [] => none
  | e :: es =>
    some (es.foldl (fun acc x => if x.2.lastUsed < acc.2.lastUsed then x else acc) e)

/-- Outcomes of the Docker calls inside `create_warm_engine`: whether
`containers.create` + `container.start` succeed, and the result of
`_wait_for_engine_ready`. -/
structure CreateOracle where
  createOk : Bool
  readyOk : Bool

/-- `f"{container_name_prefix}-{engine_id}"` with the configured prefix. -/
def containerNameOf (engineId : String) : String :=
  "vwe-warm-engine-" ++ engineId

/-- `create_warm_engine(engine_id)` (lines 101–169).  At capacity (live
engines ≥ `max_warm_containers`) it returns the least-recently-used live
engine's id without touching the registry (IndexError when there is none).
Otherwise it creates and starts the container (a failure there raises, with
the `except` handler flipping an already-registered id to ERROR), registers
the engine as STARTING, and marks it READY or ERROR according to
`_wait_for_engine_ready`, raising in the ERROR case. -/
def createWarmEngine (cfg : WarmEngineConfig) (p : Registry)
    (engineId : String) (now : Nat) (orc : CreateOracle) :
    Except String String × Registry :=
  if cfg.maxWarmContainers ≤ liveCount p then
    match lruEngine (liveEngines p) with
    | some e => (.ok e.engineId, p)
    | none => (.error "IndexError: list index out of range", p)
  else if !orc.createOk then
    match lookupEngine p engineId with
    | some e =>
      (.error "create failed", setEngine p engineId { e with state := .error })
    | none => (.error "create failed", p)
  else
    let meta : EngineMetadata :=
      { engineId := engineId, state := .starting
        containerName := containerNameOf engineId
        createdAt := now, lastUsed := now, jobsProcessed := 0
        currentJobId := none, currentSeed := none, healthStatus := "healthy" }
    if orc.readyOk then
      (.ok engineId, setEngine p engineId { meta with state := .ready })
    else
      (.error "failed to become ready",
        setEngine p engineId { meta with state := .error })

/-- `_get_available_engine()` (lines 279–293): the least-recently-used READY
engine, else `create_warm_engine()` with the time-based fresh id
`f"engine-{int(time.time())}"`. -/
def getAvailableEngine (cfg : WarmEngineConfig) (p : Registry) (now : Nat)
    (orc : CreateOracle) : Except String String × Registry :=
  match lruEntry (p.filter (fun kv => decide (kv.2.state = EngineState.ready))) with
  | some kv => (.ok kv.1, p)
  | none => createWarmEngine cfg p ("engine-" ++ toString now) now orc

/-- Outcomes of the Docker calls inside `generate_world` / `_reset_engine`:
`containers.get`, `_restart_with_new_seed`, `_wait_for_generation_complete`,
`_extract_data_from_container`, the reset's container commands, and the
reset's `_wait_for_engine_ready`. -/
structure JobOracle where
  containerGetOk : Bool
  restartOk : Bool
  exportOk : Bool
  extractOk : Bool
  resetExecOk : Bool
  resetReadyOk : Bool

/-- `_reset_engine(engine_id)` (lines 562–600): mark RESETTING, run the
cleanup commands (an exception marks ERROR), then — the counter having
reached `max_jobs_per_engine` — restart and re-await readiness, clearing
`jobs_processed` on success and marking ERROR on failure; finally READY.
Returns the Boolean the caller ignores, the new registry, and the sequence
of states assigned. -/
def resetEngine (cfg : WarmEngineConfig) (p : Registry) (engineId : String)
    (orc : JobOracle) : Bool × Registry × List EngineState :=
  match lookupEngine p engineId with
  | none => (false, p, [])
  | some e =>
    let e1 := { e with state := EngineState.resetting }
    let p1 := setEngine p engineId e1
    if !orc.resetExecOk then
      (false, setEngine p1 engineId { e1 with state := .error },
        [.resetting, .error])
    else if cfg.maxJobsPerEngine ≤ e1.jobsProcessed then
      if orc.resetReadyOk then
        (true,
          setEngine p1 engineId
            { e1 with jobsProcessed := 0, state := .ready },
          [.resetting, .ready])
      else
        (false, setEngine p1 engineId { e1 with state := .error },
          [.resetting, .error])
    else
      (true, setEngine p1 engineId { e1 with state := .ready },
        [.resetting, .ready])

/-- `generate_world(seed, seed_hash, job_id, data_dir, engine_id)`
(lines 171–277) for an explicitly given engine id.  Raises (`.error`) when
the engine is absent or not READY, leaving the registry untouched.  Then:
GENERATING (recording job id, seed, `last_used`); restart failure raises and
marks ERROR; EXPORTING; generation-wait or extraction failure raises and
marks ERROR; on success, increments `jobs_processed`, clears the current job
and seed, and either `_reset_engine` (counter at `max_jobs_per_engine`) or
READY directly.  Returns the outcome, the new registry, and the states
assigned to this engine in order. -/
def generateWorld (cfg : WarmEngineConfig) (p : Registry) (engineId : String)
    (seed jobId : String) (now : Nat) (orc : JobOracle) :
    Except String String × Registry × List EngineState :=
  match lookupEngine p engineId with
  | none => (.error "Engine not found", p, [])
  | some e =>
    if e.state = EngineState.ready then
      let e1 := { e with
        state := EngineState.generating
        currentJobId := some jobId
        currentSeed := some seed
        lastUsed := now }
      let p1 := setEngine p engineId e1
      if !orc.containerGetOk || !orc.restartOk then
        (.error "Container restart failed",
          setEngine p1 engineId
            { e1 with state := .error, healthStatus := "error: restart" },
          [.generating, .error])
      else
        let e2 := { e1 with state := EngineState.exporting }
        let p2 := setEngine p1 engineId e2
        if !orc.exportOk then
          (.error "World generation failed",
            setEngine p2 engineId
              { e2 with state := .error, healthStatus := "error: generation" },
            [.generating, .exporting, .error])
        else if !orc.extractOk then
          (.error "Data extraction failed",
            setEngine p2 engineId
              { e2 with state := .error, healthStatus := "error: extraction" },
            [.generating, .exporting, .error])
        else
          let e3 := { e2 with
            jobsProcessed := e2.jobsProcessed + 1
            currentJobId := none
            currentSeed := none }
          let p3 := setEngine p2 engineId e3
          if cfg.maxJobsPerEngine ≤ e3.jobsProcessed then
            let r := resetEngine cfg p3 engineId orc
            (.ok engineId, r.2.1, [.generating, .exporting] ++ r.2.2)
          else
            (.ok engineId,
              setEngine p3 engineId { e3 with state := .ready },
              [.generating, .exporting, .ready])
    else (.error "Engine is not ready", p, [])

/-- A running container carrying pool-membership labels, as seen by
`_discover_existing_engines`. -/
structure DiscoveredContainer where
  engineId : String
  name : String
  created : Nat

/-- `_discover_existing_engines()` (lines 602–623): every labelled running
container whose (truthy) `vwe.engine_id` is not yet registered is added as a
READY engine; there is no capacity check. -/
def discoverExistingEngines (p : Registry) (found : List DiscoveredContainer) :
    Registry :=
  found.foldl
    (fun acc c =>
      if c.engineId ≠ "" ∧ (lookupEngine acc c.engineId).isNone then
        acc ++ [(c.engineId,
          { engineId := c.engineId, state := EngineState.ready
            containerName := c.name, createdAt := c.created
            lastUsed := c.created, jobsProcessed := 0
            currentJobId := none, currentSeed := none
            healthStatus := "healthy" })]
      else acc)
    p

/-- `shutdown_engine(engine_id)` (lines 684–700): stop + remove the container
and delete the registry entry; a Docker failure leaves the entry in place. -/
def shutdownEngine (p : Registry) (engineId : String) (stopOk : Bool) :
    Bool × Registry :=
  match lookupEngine p engineId with
  | none => (false, p)
  | some _ => if stopOk then (true, removeEngine p engineId) else (false, p)

/-- Registry keys are unique (Python dict). -/
def nodupKeys (p : Registry) : Prop := (p.map Prod.fst).Nodup

/-- Every entry's metadata carries its own key as `engine_id`, as all code
paths that register engines guarantee. -/
def coherent (p : Registry) : Prop := ∀ kv ∈ p, kv.2.engineId = kv.1

end Pool

/-! ## Shared helper lemmas -/

namespace WorldGen

lemma foldl_max_init_le (l : List Nat) : ∀ a : Nat, a ≤ l.foldl max a := by
  induction l with
  | nil => intro a; exact le_refl a
  | cons b t ih => intro a; exact le_trans (le_max_left a b) (ih (max a b))

lemma le_foldl_max (l : List Nat) : ∀ (a x : Nat), x ∈ l → x ≤ l.foldl max a := by
  induction l with
  | nil => intro a x hx; cases hx
  | cons b t ih =>
    intro a x hx
    rcases List.mem_cons.mp hx with rfl | hx
    · exact le_trans (le_max_right a x) (foldl_max_init_le t (max a x))
    · exact ih (max a b) x hx

/-- Characterization of the `_files_stable` walk with running maximum
`latest`. -/
lemma filesStableAux_iff (fs : Fs) (now stable : Int) :
    ∀ (ps : List String) (latest : Nat),
      filesStableAux fs now stable ps latest = true ↔
        ((∀ p ∈ ps, (fs p).isSome) ∧
          stable ≤ now - (((ps.map (fun p => (fs p).getD 0)).foldl max latest : Nat) : Int)) := by
  intro ps
  induction ps with
  | nil => intro latest; simp [filesStableAux]
  | cons p t ih =>
    intro latest
    cases hfs : fs p with
    | none => simp [filesStableAux, hfs]
    | some m => simp [filesStableAux, hfs, ih (max latest m)]

end WorldGen


/-! ## C9 — Launch Plan Builder determinism -/

/-- C9: `build_worldgen_plan` is a pure, total function of its inputs: two
calls with the same settings, seed and seed hash produce the same image, env
map, volumes, readiness parameters and expected output paths, whatever
wall-clock instants the two calls observe (only the `generated_at` timestamp
field records the clock).  Building never fails: the builder is a total
function into `WorldgenPlan`. -/
theorem build_worldgen_plan_deterministic (s : WorldGen.Settings)
    (seed seedHash t1 t2 : String) :
    (WorldGen.buildWorldgenPlan s seed seedHash t1).image =
        (WorldGen.buildWorldgenPlan s seed seedHash t2).image
    ∧ (WorldGen.buildWorldgenPlan s seed seedHash t1).env =
        (WorldGen.buildWorldgenPlan s seed seedHash t2).env
    ∧ (WorldGen.buildWorldgenPlan s seed seedHash t1).volumes =
        (WorldGen.buildWorldgenPlan s seed seedHash t2).volumes
    ∧ (WorldGen.buildWorldgenPlan s seed seedHash t1).readiness =
        (WorldGen.buildWorldgenPlan s seed seedHash t2).readiness
    ∧ (WorldGen.buildWorldgenPlan s seed seedHash t1).rawOutputs =
        (WorldGen.buildWorldgenPlan s seed seedHash t2).rawOutputs
    ∧ (WorldGen.buildWorldgenPlan s seed seedHash t1).extractedOutputs =
        (WorldGen.buildWorldgenPlan s seed seedHash t2).extractedOutputs :=
  ⟨rfl, rfl, rfl, rfl, rfl, rfl⟩

/-! ## C2 — file-stability predicate -/

/-- C2: for a non-empty path list, `_files_stable` is true exactly when every
path exists and `now` minus the maximum mtime is at least `stable_seconds`;
hence, with all paths present and maximum mtime `T`, it is true exactly from
`T + stable_seconds` onward (false strictly before), and any path whose mtime
advances past `now - stable_seconds` makes it false again. -/
theorem files_stable_characterization (fs : WorldGen.Fs) (now stable : Int)
    (paths : List String) (_hne : paths ≠ []) :
    (WorldGen.filesStable fs now paths stable = true ↔
      ((∀ p ∈ paths, (fs p).isSome) ∧
        stable ≤ now - (WorldGen.maxMtime fs paths : Int)))
    ∧ ((∀ p ∈ paths, (fs p).isSome) →
        (WorldGen.filesStable fs now paths stable = true ↔
          (WorldGen.maxMtime fs paths : Int) + stable ≤ now))
    ∧ (∀ p0 ∈ paths, ∀ m : Nat, fs p0 = some m → now - stable < (m : Int) →
        WorldGen.filesStable fs now paths stable = false) := by
  have hmax : WorldGen.maxMtime fs paths =
      (paths.map (fun p => (fs p).getD 0)).foldl max 0 := rfl
  have hmain := WorldGen.filesStableAux_iff fs now stable paths 0
  rw [← hmax] at hmain
  refine ⟨hmain, ?_, ?_⟩
  · intro hall
    rw [WorldGen.filesStable, hmain]
    constructor
    · rintro ⟨-, h⟩; omega
    · intro h; exact ⟨hall, by omega⟩
  · intro p0 hp0 m hm hlt
    by_contra hne
    rw [Bool.not_eq_false] at hne
    rcases (hmain.mp hne) with ⟨-, hle⟩
    have hmem : m ∈ paths.map (fun p => (fs p).getD 0) :=
      List.mem_map.mpr ⟨p0, hp0, by rw [hm]; rfl⟩
    have hlemax := WorldGen.le_foldl_max (paths.map (fun p => (fs p).getD 0)) 0 m hmem
    rw [← hmax] at hlemax
    omega

/-- The filesystem of the C2 witness: a single `.db` file with mtime 100. -/
def fsW : WorldGen.Fs := fun p => if p = "a.db" then some 100 else none

/-- C2 witness: at time 120 with a 50-second stability window, a file last
modified at 100 is not yet stable. -/
theorem files_stable_characterization_witness :
    WorldGen.filesStable fsW 120 ["a.db"] 50 = false :=
  (files_stable_characterization fsW 120 50 ["a.db"] (by decide)).2.2
    "a.db" (by decide) 100 (by decide) (by decide)

/-! ## C1 — readiness verdict of the monitoring loop -/

/-- C1 counterexample: the events of a run whose log stream contains the
readiness pattern `"Saving world"` at `now = 5`, long before the deadline
`100`; no generation-complete substring ever appears and no output file ever
exists, and the stream continues past the deadline. -/
def c1Events : List WorldGen.MonEvent :=
  [ { line := "Saving world", fs := fun _ => none, now := 5, stopOk := true }
  , { line := "tick", fs := fun _ => none, now := 101, stopOk := true } ]

/-- C1 counterexample: a readiness log pattern matching at time 5 < deadline
100 does NOT end the wait with READY — `log_match` is recorded `True`, yet
the loop keeps polling and ends with `timed_out = True`.  This refutes the
claim that `logMatch` alone, before the deadline, suffices to end the wait
with READY. -/
theorem monitor_log_match_times_out_counterexample :
    (WorldGen.monitorLoop ["w.db", "w.fwl"] 10 100 false c1Events).logMatch = true
    ∧ (WorldGen.monitorLoop ["w.db", "w.fwl"] 10 100 false c1Events).timedOut = true
    ∧ WorldGen.logPatterns.any (fun pat => containsStrCI pat "Saving world") = true
    ∧ ((5 : Int) ≤ 100) := by
  refine ⟨by decide, by decide, by decide, by decide⟩

/-- C1 amended: the monitoring loop of `run_world_generation` declares the
attempt over without timeout exactly when the generation-complete heuristic
(with a successful graceful stop) or the file-stability condition fires
before any deadline-crossing poll, or the log stream ends; `timed_out` is
true exactly when the first loop-ending event is a deadline crossing.  A
readiness log-pattern match is reported in `log_match` but never ends the
wait by itself (the verdict below is independent of the accumulated
`log_match` flag `lm`). -/
theorem monitor_timedOut_eq_verdict (rawPaths : List String)
    (stable deadline : Int) :
    ∀ (events : List WorldGen.MonEvent) (lm : Bool),
      (WorldGen.monitorLoop rawPaths stable deadline lm events).timedOut =
        WorldGen.timedOutVerdict rawPaths stable deadline events := by
  intro events
  induction events with
  | nil => intro lm; rfl
  | cons e es ih =>
    intro lm
    by_cases hstop : WorldGen.eventEarlyStop rawPaths stable e = true
    · rw [WorldGen.timedOutVerdict, List.find?_cons_of_pos _ (by simp [hstop])]
      show (WorldGen.monitorLoop rawPaths stable deadline lm (e :: es)).timedOut
        = !WorldGen.eventEarlyStop rawPaths stable e
      rw [hstop]
      rcases Bool.or_eq_true_iff.mp hstop with h1 | h2
      · simp [WorldGen.monitorLoop, h1]
      · by_cases h1 : (WorldGen.generationCompleteHeuristic e.line && e.stopOk) = true
        · simp [WorldGen.monitorLoop, h1]
        · simp [WorldGen.monitorLoop, h1, h2]
    · have h1 : ¬(WorldGen.generationCompleteHeuristic e.line && e.stopOk) = true := by
        intro h; exact hstop (by simp [WorldGen.eventEarlyStop, h])
      have h2 : ¬WorldGen.fileBreakCondition rawPaths stable e = true := by
        intro h; exact hstop (by simp [WorldGen.eventEarlyStop, h])
      by_cases h3 : deadline < e.now
      · rw [WorldGen.timedOutVerdict,
          List.find?_cons_of_pos _ (by simp [hstop, h3])]
        show (WorldGen.monitorLoop rawPaths stable deadline lm (e :: es)).timedOut
          = !WorldGen.eventEarlyStop rawPaths stable e
        simp [WorldGen.monitorLoop, h1, h2, h3, hstop]
      · rw [WorldGen.timedOutVerdict,
          List.find?_cons_of_neg _ (by simp [hstop, h3])]
        rw [← WorldGen.timedOutVerdict]
        rw [← ih (lm || WorldGen.logPatterns.any fun p => containsStrCI p e.line)]
        simp [WorldGen.monitorLoop, h1, h2, h3]

/-! ## C3 — exponential backoff delays -/

namespace Orch

/-- `D` is a prefix of the geometric sequence `d, 2d, 4d, ...`. -/
def IsGeomFrom (d : Nat) (D : List Nat) : Prop :=
  ∀ j (hj : j < D.length), D.get ⟨j, hj⟩ = d * 2 ^ j

lemma isGeomFrom_nil (d : Nat) : IsGeomFrom d [] := by
  intro j hj; simp at hj

lemma isGeomFrom_single (d : Nat) : IsGeomFrom d [d] := by
  intro j hj
  have hj0 : j = 0 := by simpa using Nat.lt_one_iff.mp (by simpa using hj)
  subst hj0
  simp

lemma isGeomFrom_cons {d : Nat} {D : List Nat} (h : IsGeomFrom (d * 2) D) :
    IsGeomFrom d (d :: D) := by
  intro j hj
  cases j with
  | zero => simp
  | succ k =>
    have hk : k < D.length := by simpa using hj
    have := h k hk
    simp only [List.get_cons_succ] at this ⊢
    rw [this]
    ring

lemma isGeomFrom_chain {d : Nat} {D : List Nat} (h : IsGeomFrom d D) :
    List.Chain' (· ≤ ·) D := by
  rw [List.chain'_iff_get]
  intro i hi
  rw [h i (by omega), h (i + 1) (by omega)]
  exact Nat.mul_le_mul_left d (Nat.pow_le_pow_right (by norm_num) (Nat.le_succ i))

lemma genLoopAux_fst_geom (att : Nat → AttemptOutcome) (maxR : Nat) :
    ∀ (rem i d : Nat), 1 ≤ i → IsGeomFrom d (genLoopAux att maxR i rem d).1 := by
  intro rem
  induction rem with
  | zero => intro i d hi; exact isGeomFrom_nil d
  | succ rem ih =>
    intro i d hi
    have h0 : 0 < i := hi
    cases hatt : att i with
    | res r =>
      by_cases hs : r.success = true
      · simp [genLoopAux, hatt, hs, h0, isGeomFrom_single]
      · by_cases hb : (isConfigFailure r || r.timeout) = true
        · simp [genLoopAux, hatt, hs, hb, h0, isGeomFrom_single]
        · have := ih (i + 1) (d * 2) (by omega)
          simp only [genLoopAux, hatt, hs, hb, h0, if_true, if_pos,
            Bool.false_eq_true, if_false]
          simpa using isGeomFrom_cons this
    | exc m =>
      by_cases hl : i = maxR - 1
      · simp only [genLoopAux, hatt]
        rw [if_pos hl]
        simp [h0, isGeomFrom_single]
      · simp only [genLoopAux, hatt]
        rw [if_neg hl]
        simpa [h0] using isGeomFrom_cons (ih (i + 1) (d * 2) (by omega))

lemma genRetryLoop_fst_geom (att : Nat → AttemptOutcome) (maxR d0 : Nat) :
    IsGeomFrom d0 (genRetryLoop att maxR d0).1 := by
  cases maxR with
  | zero => exact isGeomFrom_nil d0
  | succ n =>
    have hrec := genLoopAux_fst_geom att (n + 1) n 1 d0 (le_refl 1)
    cases hatt : att 0 with
    | res r =>
      by_cases hs : r.success = true
      · simp [genRetryLoop, genLoopAux, hatt, hs, isGeomFrom_nil]
      · by_cases hb : (isConfigFailure r || r.timeout) = true
        · simp [genRetryLoop, genLoopAux, hatt, hs, hb, isGeomFrom_nil]
        · simp only [genRetryLoop, genLoopAux, hatt, hs, hb]
          simpa using hrec
    | exc m =>
      by_cases hl : (0 : Nat) = n + 1 - 1
      · have hn : n = 0 := by omega
        subst hn
        simp [genRetryLoop, genLoopAux, hatt, isGeomFrom_nil]
      · simp only [genRetryLoop, genLoopAux, hatt]
        rw [if_neg hl]
        simpa using hrec

end Orch

/-- C3: in the retry loop of `DockerOrchestrator.generate_world`, the delay
slept before the `i`-th retried attempt (0-indexed among the retried
attempts, i.e. before source attempt `i+1`) is `retry_delay * 2^i`, and the
sequence of delays actually slept is non-decreasing — whatever the attempt
outcomes are. -/
theorem retry_delays_geometric (att : Nat → Orch.AttemptOutcome)
    (maxRetries baseDelay : Nat) :
    (∀ i (hi : i < (Orch.genRetryLoop att maxRetries baseDelay).1.length),
        (Orch.genRetryLoop att maxRetries baseDelay).1.get ⟨i, hi⟩ =
          baseDelay * 2 ^ i)
    ∧ List.Chain' (· ≤ ·) (Orch.genRetryLoop att maxRetries baseDelay).1 :=
  ⟨Orch.genRetryLoop_fst_geom att maxRetries baseDelay,
    Orch.isGeomFrom_chain (Orch.genRetryLoop_fst_geom att maxRetries baseDelay)⟩

/-- An attempt function whose every attempt fails retryably. -/
def attRetryW : Nat → Orch.AttemptOutcome :=
  fun _ => .res ⟨false, false, "transient failure"⟩

/-- C3 witness: with three attempts and base delay 10, the delay before the
second retried attempt is `10 * 2^1 = 20`. -/
theorem retry_delays_geometric_witness :
    (Orch.genRetryLoop attRetryW 3 10).1.get ⟨1, by decide⟩ = 10 * 2 ^ 1 :=
  (retry_delays_geometric attRetryW 3 10).1 1 (by decide)

/-! ## C4 — halting vs. retrying classification -/

namespace Orch

lemma exec_mem_ge (att : Nat → AttemptOutcome) (maxR : Nat) :
    ∀ (rem i d j : Nat), j ∈ (genLoopAux att maxR i rem d).2.1 → i ≤ j := by
  intro rem
  induction rem with
  | zero => intro i d j hj; simp [genLoopAux] at hj
  | succ rem ih =>
    intro i d j hj
    cases hatt : att i with
    | res r =>
      by_cases hs : r.success = true
      · simp [genLoopAux, hatt, hs] at hj; omega
      · by_cases hb : (isConfigFailure r || r.timeout) = true
        · simp [genLoopAux, hatt, hs, hb] at hj; omega
        · simp only [genLoopAux, hatt] at hj
          rw [if_neg hs, if_neg (by simpa using hb)] at hj
          rcases List.mem_cons.mp hj with rfl | hj
          · exact le_refl j
          · exact le_trans (Nat.le_succ i) (ih (i + 1) _ j hj)
    | exc m =>
      by_cases hl : i = maxR - 1
      · simp only [genLoopAux, hatt] at hj
        rw [if_pos hl] at hj
        simp at hj; omega
      · simp only [genLoopAux, hatt] at hj
        rw [if_neg hl] at hj
        rcases List.mem_cons.mp hj with rfl | hj
        · exact le_refl j
        · exact le_trans (Nat.le_succ i) (ih (i + 1) _ j hj)

lemma exec_head (att : Nat → AttemptOutcome) (maxR : Nat) :
    ∀ (rem i d : Nat), 1 ≤ rem → i ∈ (genLoopAux att maxR i rem d).2.1 := by
  intro rem
  cases rem with
  | zero => intro i d h; omega
  | succ rem =>
    intro i d _
    cases hatt : att i with
    | res r =>
      by_cases hs : r.success = true
      · simp [genLoopAux, hatt, hs]
      · by_cases hb : (isConfigFailure r || r.timeout) = true
        · simp [genLoopAux, hatt, hs, hb]
        · simp only [genLoopAux, hatt]
          rw [if_neg hs, if_neg (by simpa using hb)]
          exact List.mem_cons_self i _
    | exc m =>
      by_cases hl : i = maxR - 1
      · simp only [genLoopAux, hatt]
        rw [if_pos hl]
        simp
      · simp only [genLoopAux, hatt]
        rw [if_neg hl]
        exact List.mem_cons_self i _

lemma exec_halt (att : Nat → AttemptOutcome) (maxR : Nat) :
    ∀ (rem i d : Nat), ∀ i2 ∈ (genLoopAux att maxR i rem d).2.1,
      ∀ r, att i2 = .res r → r.success = false →
        (isConfigFailure r || r.timeout) = true →
        ∀ j ∈ (genLoopAux att maxR i rem d).2.1, j ≤ i2 := by
  intro rem
  induction rem with
  | zero => intro i d i2 hi2; simp [genLoopAux] at hi2
  | succ rem ih =>
    intro i d i2 hi2 r hr hsucc hstop j hj
    cases hatt : att i with
    | res r0 =>
      by_cases hs : r0.success = true
      · simp [genLoopAux, hatt, hs] at hi2 hj; omega
      · by_cases hb : (isConfigFailure r0 || r0.timeout) = true
        · simp [genLoopAux, hatt, hs, hb] at hi2 hj; omega
        · simp only [genLoopAux, hatt] at hi2 hj
          rw [if_neg hs, if_neg (by simpa using hb)] at hi2 hj
          rcases List.mem_cons.mp hi2 with rfl | hi2
          · rw [hatt] at hr
            cases hr
            exact absurd hstop hb
          · rcases List.mem_cons.mp hj with rfl | hj
            · exact le_trans (Nat.le_succ j) (exec_mem_ge att maxR rem (j + 1) _ i2 hi2)
            · exact ih (i + 1) _ i2 hi2 r hr hsucc hstop j hj
    | exc m =>
      by_cases hl : i = maxR - 1
      · simp only [genLoopAux, hatt] at hi2 hj
        rw [if_pos hl] at hi2 hj
        simp at hi2 hj; omega
      · simp only [genLoopAux, hatt] at hi2 hj
        rw [if_neg hl] at hi2 hj
        rcases List.mem_cons.mp hi2 with rfl | hi2
        · rw [hatt] at hr; cases hr
        · rcases List.mem_cons.mp hj with rfl | hj
          · exact le_trans (Nat.le_succ j) (exec_mem_ge att maxR rem (j + 1) _ i2 hi2)
          · exact ih (i + 1) _ i2 hi2 r hr hsucc hstop j hj

lemma exec_cont (att : Nat → AttemptOutcome) (maxR : Nat) :
    ∀ (rem i d : Nat), i + rem = maxR →
      ∀ i2 ∈ (genLoopAux att maxR i rem d).2.1,
        ∀ r, att i2 = .res r → r.success = false → isConfigFailure r = false →
          r.timeout = false → i2 + 1 < maxR →
          (i2 + 1) ∈ (genLoopAux att maxR i rem d).2.1 := by
  intro rem
  induction rem with
  | zero => intro i d hinv i2 hi2; simp [genLoopAux] at hi2
  | succ rem ih =>
    intro i d hinv i2 hi2 r hr hsucc hcfg htmo hlt
    cases hatt : att i with
    | res r0 =>
      by_cases hs : r0.success = true
      · simp [genLoopAux, hatt, hs] at hi2 ⊢
        subst hi2
        rw [hatt] at hr; cases hr
        rw [hsucc] at hs; cases hs
      · by_cases hb : (isConfigFailure r0 || r0.timeout) = true
        · simp [genLoopAux, hatt, hs, hb] at hi2 ⊢
          subst hi2
          rw [hatt] at hr; cases hr
          rw [hcfg, htmo] at hb; cases hb
        · simp only [genLoopAux, hatt] at hi2 ⊢
          rw [if_neg hs, if_neg (by simpa using hb)] at hi2 ⊢
          rcases List.mem_cons.mp hi2 with rfl | hi2
          · exact List.mem_cons_of_mem _
              (exec_head att maxR rem (i2 + 1) _ (by omega))
          · exact List.mem_cons_of_mem _
              (ih (i + 1) _ (by omega) i2 hi2 r hr hsucc hcfg htmo hlt)
    | exc m =>
      by_cases hl : i = maxR - 1
      · simp only [genLoopAux, hatt] at hi2 ⊢
        rw [if_pos hl] at hi2 ⊢
        simp at hi2
        subst hi2
        rw [hatt] at hr; cases hr
      · simp only [genLoopAux, hatt] at hi2 ⊢
        rw [if_neg hl] at hi2 ⊢
        rcases List.mem_cons.mp hi2 with rfl | hi2
        · exact List.mem_cons_of_mem _
            (exec_head att maxR rem (i2 + 1) _ (by omega))
        · exact List.mem_cons_of_mem _
            (ih (i + 1) _ (by omega) i2 hi2 r hr hsucc hcfg htmo hlt)

end Orch

/-- C4: in the retry loop of `DockerOrchestrator.generate_world`, an executed
attempt whose result is a failure classified as configuration error
(`"Configuration validation failed"` in the message) or as timeout is the
last executed attempt — no later attempt runs, regardless of remaining
budget; an executed attempt whose result is a retryable failure (neither
success, configuration error, nor timeout) is followed by attempt `i + 1`
whenever budget remains. -/
theorem retry_halts_on_fatal_or_timeout (att : Nat → Orch.AttemptOutcome)
    (maxRetries baseDelay : Nat) :
    (∀ i ∈ (Orch.genRetryLoop att maxRetries baseDelay).2.1,
      ∀ r, att i = .res r → r.success = false →
        (Orch.isConfigFailure r || r.timeout) = true →
        ∀ j ∈ (Orch.genRetryLoop att maxRetries baseDelay).2.1, j ≤ i)
    ∧ (∀ i ∈ (Orch.genRetryLoop att maxRetries baseDelay).2.1,
      ∀ r, att i = .res r → r.success = false →
        Orch.isConfigFailure r = false → r.timeout = false →
        i + 1 < maxRetries →
        (i + 1) ∈ (Orch.genRetryLoop att maxRetries baseDelay).2.1) :=
  ⟨Orch.exec_halt att maxRetries maxRetries 0 baseDelay,
    Orch.exec_cont att maxRetries maxRetries 0 baseDelay (Nat.zero_add maxRetries)⟩

/-- An attempt function whose every attempt fails with a retryable
(non-timeout, non-configuration) error. -/
def attRetryableW : Nat → Orch.AttemptOutcome :=
  fun _ => .res ⟨false, false, "Container did not reach ready state"⟩

/-- C4 witness: after a retryable failure on attempt 0 with budget 3,
attempt 1 is executed. -/
theorem retry_halts_on_fatal_or_timeout_witness :
    (1 : Nat) ∈ (Orch.genRetryLoop attRetryableW 3 10).2.1 :=
  (retry_halts_on_fatal_or_timeout attRetryableW 3 10).2 0 (by decide)
    ⟨false, false, "Container did not reach ready state"⟩ rfl rfl (by decide)
    (by decide) (by decide)

/-! ## C8 — critical-error short circuit -/

namespace Orch

/-- Core induction for the critical-error short circuit: if every poll before
relative index `k` sees a running container, no Docker exception, no critical
pattern and no export indicator in its window, and the poll at `k` sees a
running container whose window contains a critical pattern, then the
monitoring loop (with BepInEx enabled) returns `(False, False)` there. -/
lemma waitMonitorAux_critical (inds : List String) (trace : Nat → PollObs) :
    ∀ (k k0 fuel : Nat) (sr : Bool) (ec : Nat), k < fuel →
      (∀ j, j < k →
        (trace (k0 + j)).raises = false ∧
        (trace (k0 + j)).status = ContainerStatus.running ∧
        checkForCriticalErrors (trace (k0 + j)).newLogs = false ∧
        (exportIndicators.any fun p => containsStr p (trace (k0 + j)).newLogs)
          = false) →
      (trace (k0 + k)).raises = false →
      (trace (k0 + k)).status = ContainerStatus.running →
      checkForCriticalErrors (trace (k0 + k)).newLogs = true →
      waitMonitorAux true inds trace k0 fuel sr ec = (false, false) := by
  intro k
  induction k with
  | zero =>
    intro k0 fuel sr ec hk _ hr hs hc
    cases fuel with
    | zero => omega
    | succ f =>
      simp only [Nat.add_zero] at hr hs hc
      simp [waitMonitorAux, hr, hs, hc]
  | succ k ih =>
    intro k0 fuel sr ec hk hbefore hr hs hc
    cases fuel with
    | zero => omega
    | succ f =>
      obtain ⟨hr0, hs0, hc0, he0⟩ := by
        simpa using hbefore 0 (Nat.succ_pos k)
      have hshift : ∀ j, j < k →
          (trace (k0 + 1 + j)).raises = false ∧
          (trace (k0 + 1 + j)).status = ContainerStatus.running ∧
          checkForCriticalErrors (trace (k0 + 1 + j)).newLogs = false ∧
          (exportIndicators.any fun p => containsStr p (trace (k0 + 1 + j)).newLogs)
            = false := by
        intro j hj
        have := hbefore (j + 1) (by omega)
        have harith : k0 + (j + 1) = k0 + 1 + j := by omega
        rwa [harith] at this
      have hcrit : checkForCriticalErrors (trace (k0 + 1 + k)).newLogs = true := by
        have harith : k0 + (k + 1) = k0 + 1 + k := by omega
        rwa [harith] at hc
      have hrk : (trace (k0 + 1 + k)).raises = false := by
        have harith : k0 + (k + 1) = k0 + 1 + k := by omega
        rwa [harith] at hr
      have hsk : (trace (k0 + 1 + k)).status = ContainerStatus.running := by
        have harith : k0 + (k + 1) = k0 + 1 + k := by omega
        rwa [harith] at hs
      have hrec := ih (k0 + 1) f
        (sr || inds.any fun p => containsStr p (trace k0).newLogs) ec
        (by omega) hshift hrk hsk hcrit
      simp [waitMonitorAux, hr0, hs0, hc0, he0, hrec]
      exact fun _ => he0

end Orch

/-- C8 counterexample: the claim as stated fails when the container is
observed exited at the poll following the appearance of a critical substring:
the container-exit check (source order: before the log scan) returns
exit-code-based success `(True, False)` — not a failure — even though the
poll's log window contains the critical pattern `"Permission denied"` and no
timeout has elapsed. -/
def c8Trace : Nat → Orch.PollObs :=
  fun _ =>
    { status := Orch.ContainerStatus.exited 0
      newLogs := "probe: Permission denied on optional path"
      raises := false }

/-- C8 counterexample theorem: with a critical substring in the first poll
window but the container already exited with code 0, the monitoring loop
returns `(True, False)` — success, not the non-timeout failure the claim
requires. -/
theorem critical_error_exit_precedence_counterexample :
    Orch.waitForGenerationWithMonitoring true ["Game server connected"]
        c8Trace 5 = (true, false)
    ∧ Orch.checkForCriticalErrors (c8Trace 0).newLogs = true := by
  exact ⟨by decide, by decide⟩

/-- C8 amended: if a critical-error substring appears in the log window of a
poll inside the timeout horizon, the container is still running at that poll
(no exception raised), and no earlier poll ended the monitoring (all earlier
polls: running, no exception, no critical pattern, no export indicator),
then the monitoring loop returns `(False, False)` at that poll — a failure
that is not a timeout, never waiting out the remaining timeout budget.  (A
container observed exited or dead at that poll instead returns exit-code
success immediately, also without waiting for the timeout: the exit check
precedes the log scan.) -/
theorem critical_error_short_circuits (inds : List String)
    (trace : Nat → Orch.PollObs) (k fuel : Nat) (hk : k < fuel)
    (hbefore : ∀ j, j < k →
      (trace j).raises = false ∧
      (trace j).status = Orch.ContainerStatus.running ∧
      Orch.checkForCriticalErrors (trace j).newLogs = false ∧
      (Orch.exportIndicators.any fun p => containsStr p (trace j).newLogs)
        = false)
    (hr : (trace k).raises = false)
    (hs : (trace k).status = Orch.ContainerStatus.running)
    (hc : Orch.checkForCriticalErrors (trace k).newLogs = true) :
    Orch.waitForGenerationWithMonitoring true inds trace fuel
      = (false, false) := by
  have := Orch.waitMonitorAux_critical inds trace k 0 fuel false 0 hk
    (by intro j hj; simpa using hbefore j hj)
    (by simpa using hr) (by simpa using hs) (by simpa using hc)
  exact this

/-- The trace of the C8 witness: a benign SteamCMD line at poll 0, a fatal
startup line at poll 1, container running throughout. -/
def c8WitnessTrace : Nat → Orch.PollObs :=
  fun j =>
    if j = 0 then
      { status := Orch.ContainerStatus.running
        newLogs := "steamcmd update 3%", raises := false }
    else
      { status := Orch.ContainerStatus.running
        newLogs := "FATAL ERROR: failed to bind socket", raises := false }

/-- C8 witness: the fatal pattern at poll 1 (within a 3-poll horizon) makes
the loop return a non-timeout failure. -/
theorem critical_error_short_circuits_witness :
    Orch.waitForGenerationWithMonitoring true ["Game server connected"]
      c8WitnessTrace 3 = (false, false) :=
  critical_error_short_circuits ["Game server connected"] c8WitnessTrace 1 3
    (by decide)
    (by
      intro j hj
      have hj0 : j = 0 := by omega
      subst hj0
      exact ⟨rfl, rfl, by decide, by decide⟩)
    rfl rfl (by decide)

/-! ## Registry lemmas for the Warm Engine Pool Manager -/

namespace Pool

/-- Contribution of one engine to the live count. -/
def liveB (e : EngineMetadata) : Nat :=
  if e.state = EngineState.error then 0 else 1

lemma liveB_le_one (e : EngineMetadata) : liveB e ≤ 1 := by
  unfold liveB; split <;> omega

lemma liveCount_nil : liveCount [] = 0 := rfl

lemma liveCount_cons (kv : String × EngineMetadata) (t : Registry) :
    liveCount (kv :: t) = liveB kv.2 + liveCount t := by
  by_cases h : kv.2.state = EngineState.error
  · simp [liveCount, liveEngines, liveB, h]
  · simp [liveCount, liveEngines, liveB, h]
    omega

lemma liveCount_cons2 (k : String) (v : EngineMetadata) (t : Registry) :
    liveCount ((k, v) :: t) = liveB v + liveCount t :=
  liveCount_cons (k, v) t

lemma lookup_set_eq (p : Registry) (k : String) (v : EngineMetadata) :
    lookupEngine (setEngine p k v) k = some v := by
  induction p with
  | nil => simp [setEngine, lookupEngine]
  | cons kv t ih =>
    by_cases h : kv.1 = k
    · simp [setEngine, lookupEngine, h]
    · simp [setEngine, lookupEngine, h, ih]

lemma liveCount_set_of_lookup_none (p : Registry) (k : String)
    (v : EngineMetadata) (h : lookupEngine p k = none) :
    liveCount (setEngine p k v) = liveCount p + liveB v := by
  induction p with
  | nil =>
    show liveCount [(k, v)] = liveCount [] + liveB v
    rw [liveCount_cons2, liveCount_nil]
    omega
  | cons kv t ih =>
    by_cases h1 : kv.1 = k
    · simp [lookupEngine, h1] at h
    · have h2 : lookupEngine t k = none := by simpa [lookupEngine, h1] using h
      show liveCount (if kv.1 = k then (k, v) :: t else kv :: setEngine t k v)
        = liveCount (kv :: t) + liveB v
      rw [if_neg h1, liveCount_cons, liveCount_cons, ih h2]
      omega

lemma liveCount_set_of_lookup_some (p : Registry) (k : String)
    (v e : EngineMetadata) (h : lookupEngine p k = some e) :
    liveCount (setEngine p k v) + liveB e = liveCount p + liveB v := by
  induction p with
  | nil => simp [lookupEngine] at h
  | cons kv t ih =>
    by_cases h1 : kv.1 = k
    · have he : kv.2 = e := by simpa [lookupEngine, h1] using h
      show liveCount (if kv.1 = k then (k, v) :: t else kv :: setEngine t k v)
          + liveB e = liveCount (kv :: t) + liveB v
      rw [if_pos h1, liveCount_cons2, liveCount_cons, ← he]
      omega
    · have h2 : lookupEngine t k = some e := by simpa [lookupEngine, h1] using h
      show liveCount (if kv.1 = k then (k, v) :: t else kv :: setEngine t k v)
          + liveB e = liveCount (kv :: t) + liveB v
      rw [if_neg h1, liveCount_cons, liveCount_cons]
      have := ih h2
      omega

lemma liveCount_set_le (p : Registry) (k : String) (v : EngineMetadata) :
    liveCount (setEngine p k v) ≤ liveCount p + 1 := by
  cases hlook : lookupEngine p k with
  | none =>
    rw [liveCount_set_of_lookup_none p k v hlook]
    have := liveB_le_one v; omega
  | some e =>
    have := liveCount_set_of_lookup_some p k v e hlook
    have := liveB_le_one v; omega

lemma liveCount_set_le_self (p : Registry) (k : String)
    (v e : EngineMetadata) (h : lookupEngine p k = some e)
    (hv : liveB v ≤ liveB e) :
    liveCount (setEngine p k v) ≤ liveCount p := by
  have := liveCount_set_of_lookup_some p k v e h
  omega

lemma length_set_of_lookup_some (p : Registry) (k : String)
    (v e : EngineMetadata) (h : lookupEngine p k = some e) :
    (setEngine p k v).length = p.length := by
  induction p with
  | nil => simp [lookupEngine] at h
  | cons kv t ih =>
    by_cases h1 : kv.1 = k
    · simp [setEngine, h1]
    · simp only [lookupEngine, h1, if_neg] at h
      simp [setEngine, h1, ih (by simpa using h)]

lemma length_remove_of_lookup_some (p : Registry) (k : String)
    (e : EngineMetadata) (h : lookupEngine p k = some e) :
    (removeEngine p k).length + 1 = p.length := by
  induction p with
  | nil => simp [lookupEngine] at h
  | cons kv t ih =>
    by_cases h1 : kv.1 = k
    · simp [removeEngine, h1]
    · simp only [lookupEngine, h1, if_neg] at h
      simp [removeEngine, h1, ih (by simpa using h)]

lemma foldlMinBy_mem (f : EngineMetadata → Nat) (es : List EngineMetadata) :
    ∀ e, es.foldl (fun acc x => if f x < f acc then x else acc) e ∈ e :: es := by
  induction es with
  | nil => intro e; simp
  | cons y t ih =>
    intro e
    have hmem := ih (if f y < f e then y else e)
    rcases List.mem_cons.mp hmem with heq | hmem2
    · rw [List.foldl_cons, heq]
      by_cases h : f y < f e <;> simp [h]
    · rw [List.foldl_cons]
      exact List.mem_cons_of_mem e (List.mem_cons_of_mem y hmem2)

lemma foldlMinBy_le (f : EngineMetadata → Nat) (es : List EngineMetadata) :
    ∀ e x, x ∈ e :: es →
      f (es.foldl (fun acc x => if f x < f acc then x else acc) e) ≤ f x := by
  induction es with
  | nil =>
    intro e x hx
    rcases List.mem_cons.mp hx with rfl | h
    · exact le_refl _
    · cases h
  | cons y t ih =>
    intro e x hx
    have hstep : f (if f y < f e then y else e) ≤ f e ∧
        f (if f y < f e then y else e) ≤ f y := by
      by_cases h : f y < f e <;> simp [h] <;> omega
    rcases List.mem_cons.mp hx with heq | hx2
    · rw [heq]
      exact le_trans
        (ih (if f y < f e then y else e) _ (List.mem_cons_self _ _)) hstep.1
    · rcases List.mem_cons.mp hx2 with heq | hx3
      · rw [heq]
        exact le_trans
          (ih (if f y < f e then y else e) _ (List.mem_cons_self _ _)) hstep.2
      · exact ih (if f y < f e then y else e) x (List.mem_cons_of_mem _ hx3)

lemma lruEngine_spec (es : List EngineMetadata) (m : EngineMetadata)
    (h : lruEngine es = some m) :
    m ∈ es ∧ ∀ x ∈ es, m.lastUsed ≤ x.lastUsed := by
  cases es with
  | nil => simp [lruEngine] at h
  | cons e t =>
    simp only [lruEngine, Option.some.injEq] at h
    subst h
    exact ⟨foldlMinBy_mem (fun y => y.lastUsed) t e,
      fun x hx => foldlMinBy_le (fun y => y.lastUsed) t e x hx⟩

lemma foldlMinEntry_mem (es : List (String × EngineMetadata)) :
    ∀ e, es.foldl (fun acc x => if x.2.lastUsed < acc.2.lastUsed then x else acc) e
      ∈ e :: es := by
  induction es with
  | nil => intro e; simp
  | cons y t ih =>
    intro e
    have hmem := ih (if y.2.lastUsed < e.2.lastUsed then y else e)
    rcases List.mem_cons.mp hmem with heq | hmem2
    · rw [List.foldl_cons, heq]
      by_cases h : y.2.lastUsed < e.2.lastUsed <;> simp [h]
    · rw [List.foldl_cons]
      exact List.mem_cons_of_mem e (List.mem_cons_of_mem y hmem2)

lemma lruEntry_mem (es : List (String × EngineMetadata))
    (kv : String × EngineMetadata) (h : lruEntry es = some kv) : kv ∈ es := by
  cases es with
  | nil => simp [lruEntry] at h
  | cons e t =>
    simp only [lruEntry, Option.some.injEq] at h
    subst h
    exact foldlMinEntry_mem t e

lemma mem_liveEngines (p : Registry) (m : EngineMetadata)
    (h : m ∈ liveEngines p) :
    (∃ kv ∈ p, kv.2 = m) ∧ m.state ≠ EngineState.error := by
  unfold liveEngines at h
  have h2 := List.mem_filter.mp h
  refine ⟨?_, by simpa using h2.2⟩
  rcases List.mem_map.mp h2.1 with ⟨kv, hkv, hkv2⟩
  exact ⟨kv, hkv, hkv2⟩

lemma lookup_of_mem_nodup (p : Registry) (k : String) (e m : EngineMetadata)
    (hnd : nodupKeys p) (hmem : (k, e) ∈ p) (hlook : lookupEngine p k = some m) :
    e = m := by
  induction p with
  | nil => cases hmem
  | cons kv t ih =>
    rcases List.mem_cons.mp hmem with heq | hmem2
    · rw [← heq] at hlook
      simp [lookupEngine] at hlook
      exact hlook
    · by_cases h1 : kv.1 = k
      · exfalso
        have hk : k ∈ t.map Prod.fst := List.mem_map.mpr ⟨(k, e), hmem2, rfl⟩
        have := (List.nodup_cons.mp hnd).1
        rw [h1] at this
        exact this hk
      · simp only [lookupEngine, h1, if_neg] at hlook
        exact ih (List.nodup_cons.mp hnd).2 hmem2 (by simpa using hlook)

end Pool

/-! ## C5 — pool-size bound -/

namespace Pool

lemma liveB_eq_one {e : EngineMetadata} (h : e.state ≠ EngineState.error) :
    liveB e = 1 := by
  simp [liveB, h]

lemma liveCount_update_nonerror (p : Registry) (k : String)
    (v e : EngineMetadata) (h : lookupEngine p k = some e)
    (he : e.state ≠ EngineState.error) (hv : v.state ≠ EngineState.error) :
    liveCount (setEngine p k v) = liveCount p := by
  have heq := liveCount_set_of_lookup_some p k v e h
  rw [liveB_eq_one he, liveB_eq_one hv] at heq
  omega

lemma createWarmEngine_liveCount_le (cfg : WarmEngineConfig) (p : Registry)
    (engineId : String) (now : Nat) (orc : CreateOracle)
    (h : liveCount p ≤ cfg.maxWarmContainers) :
    liveCount (createWarmEngine cfg p engineId now orc).2
      ≤ cfg.maxWarmContainers := by
  by_cases hcap : cfg.maxWarmContainers ≤ liveCount p
  · cases hlru : lruEngine (liveEngines p) <;>
      simp [createWarmEngine, hcap, hlru, h]
  · by_cases hco : orc.createOk
    · by_cases hro : orc.readyOk
      · simp only [createWarmEngine, if_neg hcap, hco, hro, Bool.not_true,
          Bool.false_eq_true, if_false, if_true]
        exact le_trans (liveCount_set_le p engineId _) (by omega)
      · simp only [createWarmEngine, if_neg hcap, hco, hro, Bool.not_true,
          Bool.false_eq_true, if_false, if_true]
        exact le_trans (liveCount_set_le p engineId _) (by omega)
    · have hco2 : orc.createOk = false := by simpa using hco
      cases hl : lookupEngine p engineId with
      | none => simp [createWarmEngine, hcap, hco2, hl, h]
      | some e =>
        simp only [createWarmEngine, if_neg hcap, hco2, Bool.not_false,
          if_true, hl]
        have heq := liveCount_set_of_lookup_some p engineId
          { e with state := EngineState.error } e hl
        have h1 : liveB { e with state := EngineState.error } = 0 := rfl
        have h2 := liveB_le_one e
        omega

lemma getAvailableEngine_liveCount_le (cfg : WarmEngineConfig) (p : Registry)
    (now : Nat) (orc : CreateOracle) (h : liveCount p ≤ cfg.maxWarmContainers) :
    liveCount (getAvailableEngine cfg p now orc).2
      ≤ cfg.maxWarmContainers := by
  cases hlru : lruEntry (p.filter (fun kv => decide (kv.2.state = EngineState.ready))) with
  | some kv => simp [getAvailableEngine, hlru, h]
  | none =>
    simp only [getAvailableEngine, hlru]
    exact createWarmEngine_liveCount_le cfg p _ now orc h

lemma resetEngine_liveCount_le (cfg : WarmEngineConfig) (p : Registry)
    (engineId : String) (orc : JobOracle) (e : EngineMetadata)
    (hl : lookupEngine p engineId = some e)
    (he : e.state ≠ EngineState.error) :
    liveCount (resetEngine cfg p engineId orc).2.1 ≤ liveCount p := by
  simp only [resetEngine, hl]
  split
  · refine le_trans (liveCount_set_le_self _ _ _ _ (lookup_set_eq _ _ _)
      (by simp [liveB]))
      (le_of_eq (liveCount_update_nonerror p engineId _ e hl he (by simp)))
  · split
    · split
      · refine le_trans (liveCount_set_le_self _ _ _ _ (lookup_set_eq _ _ _)
          (by simp [liveB]))
          (le_of_eq (liveCount_update_nonerror p engineId _ e hl he (by simp)))
      · refine le_trans (liveCount_set_le_self _ _ _ _ (lookup_set_eq _ _ _)
          (by simp [liveB]))
          (le_of_eq (liveCount_update_nonerror p engineId _ e hl he (by simp)))
    · refine le_trans (liveCount_set_le_self _ _ _ _ (lookup_set_eq _ _ _)
        (by simp [liveB]))
        (le_of_eq (liveCount_update_nonerror p engineId _ e hl he (by simp)))

lemma liveCount_set_chain2_le (p : Registry) (k : String)
    (e v1 v2 : EngineMetadata) (hl : lookupEngine p k = some e)
    (h1 : liveB v1 ≤ liveB e) (h2 : liveB v2 ≤ liveB v1) :
    liveCount (setEngine (setEngine p k v1) k v2) ≤ liveCount p :=
  le_trans (liveCount_set_le_self _ _ _ _ (lookup_set_eq _ _ _) h2)
    (liveCount_set_le_self _ _ _ _ hl h1)

lemma liveCount_set_chain3_le (p : Registry) (k : String)
    (e v1 v2 v3 : EngineMetadata) (hl : lookupEngine p k = some e)
    (h1 : liveB v1 ≤ liveB e) (h2 : liveB v2 ≤ liveB v1)
    (h3 : liveB v3 ≤ liveB v2) :
    liveCount (setEngine (setEngine (setEngine p k v1) k v2) k v3)
      ≤ liveCount p :=
  le_trans (liveCount_set_le_self _ _ _ _ (lookup_set_eq _ _ _) h3)
    (liveCount_set_chain2_le p k e v1 v2 hl h1 h2)

lemma liveCount_set_chain4_le (p : Registry) (k : String)
    (e v1 v2 v3 v4 : EngineMetadata) (hl : lookupEngine p k = some e)
    (h1 : liveB v1 ≤ liveB e) (h2 : liveB v2 ≤ liveB v1)
    (h3 : liveB v3 ≤ liveB v2) (h4 : liveB v4 ≤ liveB v3) :
    liveCount (setEngine (setEngine (setEngine (setEngine p k v1) k v2) k v3) k v4)
      ≤ liveCount p :=
  le_trans (liveCount_set_le_self _ _ _ _ (lookup_set_eq _ _ _) h4)
    (liveCount_set_chain3_le p k e v1 v2 v3 hl h1 h2 h3)

lemma liveCount_reset_after_three (cfg : WarmEngineConfig) (p : Registry)
    (k : String) (e v1 v2 v3 : EngineMetadata) (orc : JobOracle)
    (hl : lookupEngine p k = some e) (h1 : liveB v1 ≤ liveB e)
    (h2 : liveB v2 ≤ liveB v1) (h3 : liveB v3 ≤ liveB v2)
    (hv3 : v3.state ≠ EngineState.error) :
    liveCount (resetEngine cfg
        (setEngine (setEngine (setEngine p k v1) k v2) k v3) k orc).2.1
      ≤ liveCount p :=
  le_trans (resetEngine_liveCount_le cfg _ k orc v3 (lookup_set_eq _ _ _) hv3)
    (liveCount_set_chain3_le p k e v1 v2 v3 hl h1 h2 h3)

lemma generateWorld_liveCount_le (cfg : WarmEngineConfig) (p : Registry)
    (engineId seed jobId : String) (now : Nat) (orc : JobOracle) :
    liveCount (generateWorld cfg p engineId seed jobId now orc).2.1
      ≤ liveCount p := by
  cases hl : lookupEngine p engineId with
  | none => simp [generateWorld, hl]
  | some e =>
    simp only [generateWorld, hl]
    split
    case isTrue hst =>
      have he : e.state ≠ EngineState.error := by
        rw [hst]; intro h; cases h
      split
      · apply liveCount_set_chain2_le p engineId e
        · exact hl
        · rw [liveB_eq_one he]; simp [liveB]
        · simp [liveB]
      · split
        · apply liveCount_set_chain3_le p engineId e
          · exact hl
          · rw [liveB_eq_one he]; simp [liveB]
          · simp [liveB]
          · simp [liveB]
        · split
          · apply liveCount_set_chain3_le p engineId e
            · exact hl
            · rw [liveB_eq_one he]; simp [liveB]
            · simp [liveB]
            · simp [liveB]
          · split
            · apply liveCount_reset_after_three cfg p engineId e
              · exact hl
              · rw [liveB_eq_one he]; simp [liveB]
              · simp [liveB]
              · simp [liveB]
              · simp
            · apply liveCount_set_chain4_le p engineId e
              · exact hl
              · rw [liveB_eq_one he]; simp [liveB]
              · simp [liveB]
              · simp [liveB]
              · simp [liveB]
    case isFalse hst => exact le_refl _

end Pool

/-- C5 counterexample pool discovery input: four labelled running containers
found at startup with the default `max_warm_containers = 3`. -/
def c5Found : List Pool.DiscoveredContainer :=
  [ { engineId := "e1", name := "c1", created := 0 }
  , { engineId := "e2", name := "c2", created := 0 }
  , { engineId := "e3", name := "c3", created := 0 }
  , { engineId := "e4", name := "c4", created := 0 } ]

/-- C5 counterexample: `_discover_existing_engines` registers every labelled
running container with no capacity check, so discovering four containers
yields a registry of four live engines, exceeding the configured
`max_warm_containers = 3` — the invariant fails on a reachable state
(process start with four leftover pool containers). -/
theorem pool_size_discover_counterexample :
    Pool.liveCount (Pool.discoverExistingEngines [] c5Found) = 4
    ∧ ¬ Pool.liveCount (Pool.discoverExistingEngines [] c5Found) ≤ 3 := by
  exact ⟨by decide, by decide⟩

/-- C5 amended: `createEngine`, `acquireEngine` and `runJob` all preserve the
pool bound — from a registry with at most `max_warm_containers` live
(non-ERROR) engines, each operation leaves at most that many — and
`createEngine` at capacity returns the least-recently-used live engine's id,
leaving the registry unchanged.  `discoverExisting` is the exception: it
re-registers every labelled running container without a capacity check and
can therefore exceed the bound (see the counterexample). -/
theorem pool_size_preserved (cfg : Pool.WarmEngineConfig) (p : Pool.Registry)
    (h : Pool.liveCount p ≤ cfg.maxWarmContainers) :
    (∀ engineId now orc,
      Pool.liveCount (Pool.createWarmEngine cfg p engineId now orc).2
        ≤ cfg.maxWarmContainers)
    ∧ (∀ now orc,
      Pool.liveCount (Pool.getAvailableEngine cfg p now orc).2
        ≤ cfg.maxWarmContainers)
    ∧ (∀ engineId seed jobId now orc,
      Pool.liveCount (Pool.generateWorld cfg p engineId seed jobId now orc).2.1
        ≤ cfg.maxWarmContainers)
    ∧ (cfg.maxWarmContainers ≤ Pool.liveCount p →
      ∀ engineId now orc,
        (Pool.createWarmEngine cfg p engineId now orc).2 = p
        ∧ ∀ m, Pool.lruEngine (Pool.liveEngines p) = some m →
            (Pool.createWarmEngine cfg p engineId now orc).1 = .ok m.engineId
            ∧ m ∈ Pool.liveEngines p
            ∧ ∀ x ∈ Pool.liveEngines p, m.lastUsed ≤ x.lastUsed) := by
  refine ⟨?_, ?_, ?_, ?_⟩
  · intro engineId now orc
    exact Pool.createWarmEngine_liveCount_le cfg p engineId now orc h
  · intro now orc
    exact Pool.getAvailableEngine_liveCount_le cfg p now orc h
  · intro engineId seed jobId now orc
    exact le_trans
      (Pool.generateWorld_liveCount_le cfg p engineId seed jobId now orc) h
  · intro hcap engineId now orc
    constructor
    · cases hlru : Pool.lruEngine (Pool.liveEngines p) <;>
        simp [Pool.createWarmEngine, hcap, hlru]
    · intro m hm
      have hspec := Pool.lruEngine_spec (Pool.liveEngines p) m hm
      exact ⟨by simp [Pool.createWarmEngine, hcap, hm], hspec.1, hspec.2⟩

/-- The configuration of the pool witnesses: pool bound 3, engine job cap 10
(the source defaults). -/
def cfgW : Pool.WarmEngineConfig :=
  { maxWarmContainers := 3, maxJobsPerEngine := 10 }

/-- C5 witness: creating an engine in an empty registry (bound 3) leaves at
most 3 live engines. -/
theorem pool_size_preserved_witness :
    Pool.liveCount (Pool.createWarmEngine cfgW [] "e1" 7
      { createOk := true, readyOk := true }).2 ≤ 3 :=
  (pool_size_preserved cfgW [] (by decide)).1 "e1" 7
    { createOk := true, readyOk := true }

/-! ## C10 — runJob guard -/

/-- C10: the pool manager's `generate_world` with an engine id that is absent
from the registry, or whose engine is not READY, raises (`ValueError` /
`RuntimeError`) before any mutation: the result is an error, the registry is
returned unchanged (so the engine's `state`, `jobs_processed`,
`current_job_id` and `current_seed` are untouched), and no state transition
is performed (empty transition trace) — generation never begins on a
STARTING, GENERATING, EXPORTING, RESETTING or ERROR engine. -/
theorem runJob_requires_ready (cfg : Pool.WarmEngineConfig) (p : Pool.Registry)
    (engineId seed jobId : String) (now : Nat) (orc : Pool.JobOracle) :
    (Pool.lookupEngine p engineId = none →
      Pool.generateWorld cfg p engineId seed jobId now orc
        = (.error "Engine not found", p, []))
    ∧ (∀ e, Pool.lookupEngine p engineId = some e →
        e.state ≠ Pool.EngineState.ready →
        Pool.generateWorld cfg p engineId seed jobId now orc
          = (.error "Engine is not ready", p, [])) := by
  constructor
  · intro h
    simp [Pool.generateWorld, h]
  · intro e h hs
    simp [Pool.generateWorld, h, hs]

/-- The fully-successful Docker oracle. -/
def orcAllW : Pool.JobOracle :=
  { containerGetOk := true, restartOk := true, exportOk := true
    extractOk := true, resetExecOk := true, resetReadyOk := true }

/-- A registry holding one engine that is mid-generation. -/
def poolBusyW : Pool.Registry :=
  [("e1",
    { engineId := "e1", state := Pool.EngineState.generating
      containerName := "vwe-warm-engine-e1", createdAt := 0, lastUsed := 0
      jobsProcessed := 1, currentJobId := some "j0", currentSeed := some "s0"
      healthStatus := "healthy" })]

/-- C10 witness: calling `generate_world` on a GENERATING engine raises and
leaves the registry unchanged. -/
theorem runJob_requires_ready_witness :
    Pool.generateWorld cfgW poolBusyW "e1" "s" "j" 5 orcAllW
      = (.error "Engine is not ready", poolBusyW, []) :=
  (runJob_requires_ready cfgW poolBusyW "e1" "s" "j" 5 orcAllW).2
    { engineId := "e1", state := Pool.EngineState.generating
      containerName := "vwe-warm-engine-e1", createdAt := 0, lastUsed := 0
      jobsProcessed := 1, currentJobId := some "j0", currentSeed := some "s0"
      healthStatus := "healthy" }
    (by decide) (by decide)

/-! ## C6 — RESETTING before READY at the job cap -/

/-- C6: after a fully successful `generate_world` run on a READY engine, if
the incremented `jobs_processed` counter reaches `max_jobs_per_engine`, the
engine's transitions out of EXPORTING pass through RESETTING before any
READY (the assignment trace is `GENERATING, EXPORTING, RESETTING,
READY-or-ERROR`), and whenever the engine ends READY its counter has been
cleared to 0 by the reset; an engine below the threshold goes directly
`GENERATING, EXPORTING, READY` with the incremented counter. -/
theorem engine_reset_at_max_jobs (cfg : Pool.WarmEngineConfig)
    (p : Pool.Registry) (engineId seed jobId : String) (now : Nat)
    (orc : Pool.JobOracle) (e : Pool.EngineMetadata)
    (hl : Pool.lookupEngine p engineId = some e)
    (hst : e.state = Pool.EngineState.ready)
    (h1 : orc.containerGetOk = true) (h2 : orc.restartOk = true)
    (h3 : orc.exportOk = true) (h4 : orc.extractOk = true) :
    (cfg.maxJobsPerEngine ≤ e.jobsProcessed + 1 →
      ((Pool.generateWorld cfg p engineId seed jobId now orc).2.2
          = [Pool.EngineState.generating, Pool.EngineState.exporting,
             Pool.EngineState.resetting, Pool.EngineState.ready]
        ∨ (Pool.generateWorld cfg p engineId seed jobId now orc).2.2
          = [Pool.EngineState.generating, Pool.EngineState.exporting,
             Pool.EngineState.resetting, Pool.EngineState.error])
      ∧ (∀ m, Pool.lookupEngine
            (Pool.generateWorld cfg p engineId seed jobId now orc).2.1 engineId
            = some m →
          m.state = Pool.EngineState.ready → m.jobsProcessed = 0))
    ∧ (e.jobsProcessed + 1 < cfg.maxJobsPerEngine →
      (Pool.generateWorld cfg p engineId seed jobId now orc).2.2
        = [Pool.EngineState.generating, Pool.EngineState.exporting,
           Pool.EngineState.ready]
      ∧ ∃ m, Pool.lookupEngine
            (Pool.generateWorld cfg p engineId seed jobId now orc).2.1 engineId
            = some m
          ∧ m.state = Pool.EngineState.ready
          ∧ m.jobsProcessed = e.jobsProcessed + 1) := by
  constructor
  · intro hthr
    by_cases hre : orc.resetExecOk
    · by_cases hrr : orc.resetReadyOk
      · constructor
        · left
          simp [Pool.generateWorld, hl, hst, h1, h2, h3, h4, hthr,
            Pool.resetEngine, Pool.lookup_set_eq, hre, hrr]
        · intro m hm hready
          simp only [Pool.generateWorld, hl, hst, h1, h2, h3, h4, hthr,
            Pool.resetEngine, Pool.lookup_set_eq, hre, hrr] at hm
          simp [Pool.generateWorld, hl, hst, h1, h2, h3, h4, hthr,
            Pool.resetEngine, Pool.lookup_set_eq, hre, hrr] at hm
          rw [← hm]
      · constructor
        · right
          simp [Pool.generateWorld, hl, hst, h1, h2, h3, h4, hthr,
            Pool.resetEngine, Pool.lookup_set_eq, hre, hrr]
        · intro m hm hready
          simp [Pool.generateWorld, hl, hst, h1, h2, h3, h4, hthr,
            Pool.resetEngine, Pool.lookup_set_eq, hre, hrr] at hm
          rw [← hm] at hready
          cases hready
    · have hre2 : orc.resetExecOk = false := by simpa using hre
      constructor
      · right
        simp [Pool.generateWorld, hl, hst, h1, h2, h3, h4, hthr,
          Pool.resetEngine, Pool.lookup_set_eq, hre2]
      · intro m hm hready
        simp [Pool.generateWorld, hl, hst, h1, h2, h3, h4, hthr,
          Pool.resetEngine, Pool.lookup_set_eq, hre2] at hm
        rw [← hm] at hready
        cases hready
  · intro hlt
    have hthr2 : ¬ cfg.maxJobsPerEngine ≤ e.jobsProcessed + 1 := by omega
    constructor
    · simp [Pool.generateWorld, hl, hst, h1, h2, h3, h4, hthr2]
    · simp [Pool.generateWorld, hl, hst, h1, h2, h3, h4, hthr2,
        Pool.lookup_set_eq]

/-- A registry holding one READY engine that has processed 9 jobs (one below
the default cap of 10). -/
def poolReadyW : Pool.Registry :=
  [("e1",
    { engineId := "e1", state := Pool.EngineState.ready
      containerName := "vwe-warm-engine-e1", createdAt := 0, lastUsed := 0
      jobsProcessed := 9, currentJobId := none, currentSeed := none
      healthStatus := "healthy" })]

/-- C6 witness: a successful job takes the engine to the cap (9 + 1 = 10), so
its transition trace passes through RESETTING between EXPORTING and READY. -/
theorem engine_reset_at_max_jobs_witness :
    (Pool.generateWorld cfgW poolReadyW "e1" "s" "j" 3 orcAllW).2.2
        = [Pool.EngineState.generating, Pool.EngineState.exporting,
           Pool.EngineState.resetting, Pool.EngineState.ready]
      ∨ (Pool.generateWorld cfgW poolReadyW "e1" "s" "j" 3 orcAllW).2.2
        = [Pool.EngineState.generating, Pool.EngineState.exporting,
           Pool.EngineState.resetting, Pool.EngineState.error] :=
  ((engine_reset_at_max_jobs cfgW poolReadyW "e1" "s" "j" 3 orcAllW
    { engineId := "e1", state := Pool.EngineState.ready
      containerName := "vwe-warm-engine-e1", createdAt := 0, lastUsed := 0
      jobsProcessed := 9, currentJobId := none, currentSeed := none
      healthStatus := "healthy" }
    (by decide) (by decide) rfl rfl rfl rfl).1 (by decide)).1

/-! ## C7 — fate of ERROR engines -/

namespace Pool

lemma createWarmEngine_ne_error_id (cfg : WarmEngineConfig) (p : Registry)
    (badId cid : String) (m : EngineMetadata) (now : Nat) (orc : CreateOracle)
    (hnd : nodupKeys p) (hcoh : coherent p)
    (hl : lookupEngine p badId = some m) (hm : m.state = EngineState.error)
    (hfresh : lookupEngine p cid = none) :
    (createWarmEngine cfg p cid now orc).1 ≠ .ok badId := by
  intro heq
  by_cases hcap : cfg.maxWarmContainers ≤ liveCount p
  · cases hlru : lruEngine (liveEngines p) with
    | none => simp [createWarmEngine, hcap, hlru] at heq
    | some lm =>
      simp [createWarmEngine, hcap, hlru] at heq
      obtain ⟨⟨kv, hkv, hkv2⟩, hne⟩ :=
        mem_liveEngines p lm (lruEngine_spec _ lm hlru).1
      have hk1 : kv.1 = badId := by rw [← hcoh kv hkv, hkv2, heq]
      have hbad : (badId, kv.2) ∈ p := by rw [← hk1]; exact hkv
      have hkvm : kv.2 = m := lookup_of_mem_nodup p badId kv.2 m hnd hbad hl
      have hlm : lm = m := by rw [← hkv2, hkvm]
      rw [hlm] at hne
      exact hne hm
  · by_cases hcok : orc.createOk
    · by_cases hro : orc.readyOk
      · simp [createWarmEngine, hcap, hcok, hro] at heq
        rw [heq] at hfresh
        rw [hfresh] at hl
        cases hl
      · simp [createWarmEngine, hcap, hcok, hro] at heq
    · have hcok2 : orc.createOk = false := by simpa using hcok
      simp [createWarmEngine, hcap, hcok2, hfresh] at heq

lemma getAvailableEngine_ne_error_id (cfg : WarmEngineConfig) (p : Registry)
    (badId : String) (m : EngineMetadata) (now : Nat) (orc : CreateOracle)
    (hnd : nodupKeys p) (hcoh : coherent p)
    (hl : lookupEngine p badId = some m) (hm : m.state = EngineState.error)
    (hfresh : lookupEngine p ("engine-" ++ toString now) = none) :
    (getAvailableEngine cfg p now orc).1 ≠ .ok badId := by
  intro heq
  cases hlru : lruEntry
      (p.filter fun kv => decide (kv.2.state = EngineState.ready)) with
  | some kv =>
    simp [getAvailableEngine, hlru] at heq
    have hf := List.mem_filter.mp (lruEntry_mem _ kv hlru)
    have hready : kv.2.state = EngineState.ready := by simpa using hf.2
    have hbad : (badId, kv.2) ∈ p := by rw [← heq]; exact hf.1
    have hkvm : kv.2 = m := lookup_of_mem_nodup p badId kv.2 m hnd hbad hl
    rw [hkvm, hm] at hready
    cases hready
  | none =>
    simp only [getAvailableEngine, hlru] at heq
    exact createWarmEngine_ne_error_id cfg p badId _ m now orc hnd hcoh hl hm
      hfresh heq

lemma generateWorld_marks_error_in_place (cfg : WarmEngineConfig)
    (p : Registry) (engineId seed jobId : String) (now : Nat) (orc : JobOracle)
    (e : EngineMetadata) (hl : lookupEngine p engineId = some e)
    (hst : e.state = EngineState.ready) (h1 : orc.containerGetOk = true)
    (h2 : orc.restartOk = true) (h3 : orc.exportOk = false) :
    (generateWorld cfg p engineId seed jobId now orc).1
        = .error "World generation failed"
    ∧ (generateWorld cfg p engineId seed jobId now orc).2.1.length = p.length
    ∧ ∃ m2, lookupEngine (generateWorld cfg p engineId seed jobId now orc).2.1
          engineId = some m2
        ∧ m2.state = EngineState.error := by
  refine ⟨?_, ?_, ?_⟩
  · simp [generateWorld, hl, hst, h1, h2, h3]
  · simp only [generateWorld, hl, hst, h1, h2, h3]
    simp only [hst, if_pos, Bool.not_true, Bool.false_eq_true, Bool.or_self,
      if_false, Bool.not_false, if_true]
    rw [length_set_of_lookup_some _ _ _ _ (lookup_set_eq _ _ _)]
    rw [length_set_of_lookup_some _ _ _ _ (lookup_set_eq _ _ _)]
    exact length_set_of_lookup_some p engineId _ e hl
  · simp [generateWorld, hl, hst, h1, h2, h3, lookup_set_eq]

end Pool

/-- The Docker oracle of a job whose generation wait fails. -/
def orcExportFailW : Pool.JobOracle :=
  { containerGetOk := true, restartOk := true, exportOk := false
    extractOk := true, resetExecOk := true, resetReadyOk := true }

/-- C7 counterexample: after a failed `generate_world` on the READY engine,
the engine marked ERROR is still present in the registry (with state ERROR,
registry length unchanged) — it is neither removed from the pool nor torn
down, contradicting the claim that ERROR implies teardown and removal. -/
theorem error_engine_not_removed_counterexample :
    (Pool.lookupEngine
        (Pool.generateWorld cfgW poolReadyW "e1" "s2" "j2" 4
          orcExportFailW).2.1 "e1").isSome = true
    ∧ (Pool.generateWorld cfgW poolReadyW "e1" "s2" "j2" 4
        orcExportFailW).2.1.length = 1
    ∧ ((Pool.lookupEngine
        (Pool.generateWorld cfgW poolReadyW "e1" "s2" "j2" 4
          orcExportFailW).2.1 "e1").map (fun m => m.state))
      = some Pool.EngineState.error := by
  exact ⟨by decide, by decide, by decide⟩

/-- C7 amended: an engine marked ERROR stays in the registry but is dead to
the pool: `acquireEngine` never returns it (it selects READY engines only,
and its `createEngine` fallback returns either a fresh id or a non-ERROR LRU
engine), `createEngine` with a fresh id never returns it, a failing `runJob`
marks the engine ERROR in place — error result, registry length unchanged,
engine still registered with state ERROR (no eager replacement, no
teardown) — and only an explicit `shutdown_engine` call tears the engine
down and removes it (shrinking the registry by exactly one entry). -/
theorem error_engine_terminal (cfg : Pool.WarmEngineConfig) (p : Pool.Registry)
    (badId : String) (m : Pool.EngineMetadata)
    (hnd : Pool.nodupKeys p) (hcoh : Pool.coherent p)
    (hl : Pool.lookupEngine p badId = some m)
    (hm : m.state = Pool.EngineState.error) :
    (∀ now orc, Pool.lookupEngine p ("engine-" ++ toString now) = none →
      (Pool.getAvailableEngine cfg p now orc).1 ≠ .ok badId)
    ∧ (∀ cid now orc, Pool.lookupEngine p cid = none →
      (Pool.createWarmEngine cfg p cid now orc).1 ≠ .ok badId)
    ∧ (∀ engineId seed jobId now orc e,
      Pool.lookupEngine p engineId = some e →
      e.state = Pool.EngineState.ready →
      orc.containerGetOk = true → orc.restartOk = true →
      orc.exportOk = false →
      (Pool.generateWorld cfg p engineId seed jobId now orc).1
          = .error "World generation failed"
      ∧ (Pool.generateWorld cfg p engineId seed jobId now orc).2.1.length
          = p.length
      ∧ ∃ m2, Pool.lookupEngine
            (Pool.generateWorld cfg p engineId seed jobId now orc).2.1 engineId
            = some m2
          ∧ m2.state = Pool.EngineState.error)
    ∧ ((Pool.shutdownEngine p badId true).1 = true
      ∧ (Pool.shutdownEngine p badId true).2.length + 1 = p.length) := by
  refine ⟨?_, ?_, ?_, ?_, ?_⟩
  · intro now orc hfresh
    exact Pool.getAvailableEngine_ne_error_id cfg p badId m now orc hnd hcoh
      hl hm hfresh
  · intro cid now orc hfresh
    exact Pool.createWarmEngine_ne_error_id cfg p badId cid m now orc hnd hcoh
      hl hm hfresh
  · intro engineId seed jobId now orc e he hst h1 h2 h3
    exact Pool.generateWorld_marks_error_in_place cfg p engineId seed jobId
      now orc e he hst h1 h2 h3
  · simp [Pool.shutdownEngine, hl]
  · simp only [Pool.shutdownEngine, hl, if_pos]
    exact Pool.length_remove_of_lookup_some p badId m hl

/-- A registry holding one ERROR engine. -/
def poolErrW : Pool.Registry :=
  [("bad",
    { engineId := "bad", state := Pool.EngineState.error
      containerName := "vwe-warm-engine-bad", createdAt := 0, lastUsed := 0
      jobsProcessed := 3, currentJobId := none, currentSeed := none
      healthStatus := "error: restart" })]

/-- C7 witness: an explicit `shutdown_engine` on the ERROR engine succeeds
and removes exactly its entry. -/
theorem error_engine_terminal_witness :
    (Pool.shutdownEngine poolErrW "bad" true).1 = true
    ∧ (Pool.shutdownEngine poolErrW "bad" true).2.length + 1
        = poolErrW.length :=
  (error_engine_terminal cfgW poolErrW "bad"
    { engineId := "bad", state := Pool.EngineState.error
      containerName := "vwe-warm-engine-bad", createdAt := 0, lastUsed := 0
      jobsProcessed := 3, currentJobId := none, currentSeed := none
      healthStatus := "error: restart" }
    (by show (poolErrW.map Prod.fst).Nodup; decide)
    (by
      intro kv hkv
      cases hkv with
      | head => rfl
      | tail _ h => cases h)
    (by decide) rfl).2.2.2
